import Mathlib

/-!
Shallow embedding of the collision-detection core of SBDL.h (namespace SBDL),
together with theorems about its behaviour.

Modelling conventions:
* C `int` values are modelled as `Int` (arbitrary precision); loop counters and
  array sizes that are nonnegative by construction are modelled as `Nat`.
* C++ truncating integer division is `Int.tdiv`; `>> k` on nonnegative values is
  division by `2 ^ k`.
* The `double` sine and cosine of an angle are abstracted as exact rational
  parameters `angle_sin angle_cos : ℚ`; `sin` and `cos` are never applied inside
  the core, they are computed once per call and fed to integer `ceil`/`round`.
* Heap buffers (`int *`) are `List Int`.  Reads and writes outside the
  allocation are undefined behaviour in the source and are modelled by
  `readBuf`/`writeBuf` as reading 0 / dropping the write.
-/

namespace SBDL

/-- Read a C buffer at an integer index; reads outside the allocation are
undefined behaviour in the source and are modelled as reading 0. -/
def readBuf (buf : List Int) (idx : Int) : Int :=
  if 0 ≤ idx then buf.getD idx.toNat 0 else 0

/-- Write a C buffer at an integer index; writes outside the allocation are
undefined behaviour in the source and are modelled as dropped. -/
def writeBuf (buf : List Int) (idx : Int) (v : Int) : List Int :=
  if 0 ≤ idx ∧ idx.toNat < buf.length then buf.set idx.toNat v else buf

/-- Ceiling of the linear form `b·s + a·c` (the shape of every `ceil` call in
`getRotatedBoundingBox`), computed on numerators and denominators so that it
reduces in the kernel.  `ceilLin_eq` below identifies it with `⌈b·s + a·c⌉`. -/
def ceilLin (b a : Int) (s c : ℚ) : Int :=
  let n := b * s.num * c.den + a * c.num * s.den
  let d : Int := (s.den : Int) * (c.den : Int)
  Int.neg (Int.fdiv (-n) d)

/-- C `round(b·s + a·c)`: nearest integer, halves rounded away from zero (the
shape of every `round` call in `getRotatedAlphaMap`).  `roundLin_eq` below gives
its arithmetic characterisation. -/
def roundLin (b a : Int) (s c : ℚ) : Int :=
  let n := b * s.num * c.den + a * c.num * s.den
  let d : Int := (s.den : Int) * (c.den : Int)
  if 0 ≤ n then Int.fdiv (2 * n + d) (2 * d) else Int.neg (Int.fdiv (d - 2 * n) (2 * d))

theorem mul_den_cancel (s : ℚ) : (s : ℚ) * (s.den : ℚ) = (s.num : ℚ) := by
  nth_rewrite 1 [← Rat.num_div_den s]
  exact div_mul_cancel₀ (s.num : ℚ) (show ((s.den : ℚ)) ≠ 0 by positivity)

/-- The linear form `b·s + a·c` as a quotient of integers. -/
theorem linVal (b a : Int) (s c : ℚ) :
    (b : ℚ) * s + (a : ℚ) * c =
      ((b * s.num * c.den + a * c.num * s.den : Int) : ℚ) /
        (((s.den : Int) * (c.den : Int) : Int) : ℚ) := by
  rw [eq_div_iff (by positivity)]
  push_cast
  calc ((b : ℚ) * s + (a : ℚ) * c) * ((s.den : ℚ) * (c.den : ℚ))
      = (b : ℚ) * (s * s.den) * c.den + (a : ℚ) * (c * c.den) * s.den := by ring
    _ = (b : ℚ) * s.num * c.den + (a : ℚ) * c.num * s.den := by
        rw [mul_den_cancel s, mul_den_cancel c]

theorem fdiv_eq_floor (n d : Int) (hd : 0 < d) :
    Int.fdiv n d = ⌊(n : ℚ) / (d : ℚ)⌋ := by
  obtain ⟨m, rfl⟩ := Int.eq_ofNat_of_zero_le hd.le
  rw [Int.fdiv_eq_ediv _ (by positivity), ← Rat.floor_intCast_div_natCast n m]
  push_cast
  rfl

/-- `ceilLin` is the ceiling of the exact rational value `b·s + a·c`. -/
theorem ceilLin_eq (b a : Int) (s c : ℚ) : ceilLin b a s c = ⌈(b : ℚ) * s + (a : ℚ) * c⌉ := by
  have hd : (0 : Int) < (s.den : Int) * (c.den : Int) := by positivity
  rw [ceilLin, linVal b a s c]
  show -(Int.fdiv _ _) = _
  rw [fdiv_eq_floor _ _ hd]
  rw [show ((-(b * s.num * c.den + a * c.num * s.den) : Int) : ℚ)
      = -((b * s.num * ↑c.den + a * c.num * ↑s.den : Int) : ℚ) by push_cast; ring]
  rw [neg_div, Int.floor_neg, neg_neg]

/-- `roundLin` rounds the exact rational value `b·s + a·c` to the nearest
integer, halves away from zero, as C `round` does. -/
theorem roundLin_eq (b a : Int) (s c : ℚ) :
    roundLin b a s c =
      if 0 ≤ (b : ℚ) * s + (a : ℚ) * c then ⌊(b : ℚ) * s + (a : ℚ) * c + 1/2⌋
      else ⌈(b : ℚ) * s + (a : ℚ) * c - 1/2⌉ := by
  have hd : (0 : Int) < (s.den : Int) * (c.den : Int) := by positivity
  set n : Int := b * s.num * c.den + a * c.num * s.den with hn
  set dI : Int := (s.den : Int) * (c.den : Int) with hdI
  have h1 : (0 ≤ n) ↔ (0 ≤ (b : ℚ) * s + (a : ℚ) * c) := by
    rw [linVal b a s c, le_div_iff₀ (by positivity)]
    simp only [zero_mul]
    exact ⟨fun h => by exact_mod_cast h, fun h => by exact_mod_cast h⟩
  rw [roundLin]
  by_cases hn0 : 0 ≤ n
  · rw [if_pos hn0, if_pos (h1.mp hn0), linVal b a s c]
    have h2 : ((n : ℚ)) / ((dI : Int) : ℚ) + 1/2 = ((2 * n + dI : Int) : ℚ) / ((2 * dI : Int) : ℚ) := by
      push_cast
      rw [div_add_div _ _ (by positivity) (by norm_num),
        div_eq_div_iff (by positivity) (by positivity)]
      ring
    rw [h2, ← fdiv_eq_floor _ _ (by omega)]
  · rw [if_neg hn0, if_neg (fun hq => hn0 (h1.mpr hq)), linVal b a s c]
    show -(Int.fdiv _ _) = _
    have h2 : ((n : ℚ)) / ((dI : Int) : ℚ) - 1/2 = ((2 * n - dI : Int) : ℚ) / ((2 * dI : Int) : ℚ) := by
      push_cast
      rw [div_sub_div _ _ (by positivity) (by norm_num),
        div_eq_div_iff (by positivity) (by positivity)]
      ring
    rw [h2, show (((2 * n - dI : Int)) : ℚ) = -(((dI - 2 * n : Int)) : ℚ) by push_cast; ring,
      neg_div, Int.ceil_neg, fdiv_eq_floor _ _ (by omega)]

/-- SDL_Rect: integer axis-aligned rectangle. -/
structure Rect where
  x : Int
  y : Int
  w : Int
  h : Int
deriving DecidableEq, Repr

/-- The fields of struct Texture that the collision path uses: native width,
native height, and the alpha map (an int buffer of size width * height). -/
structure Texture where
  width : Nat
  height : Nat
  alphaMap : List Int
deriving DecidableEq, Repr

/-- SBDL::getIntersectionRect. -/
def getIntersectionRect (rect1 rect2 : Rect) : Rect :=
  let x1 := max rect1.x rect2.x
  let y1 := max rect1.y rect2.y
  let x2 := min (rect1.x + rect1.w) (rect2.x + rect2.w)
  let y2 := min (rect1.y + rect1.h) (rect2.y + rect2.h)
  let width := x2 - x1
  let height := y2 - y1
  if 0 < width ∧ 0 < height then ⟨x1, y1, width, height⟩ else ⟨0, 0, 0, 0⟩

/-- SBDL::getRotatedBoundingBox, with the angle abstracted by its sine and
cosine.  Corner k of the centre-translated rectangle is rotated by
`x' = y·sin + x·cos`, `y' = y·cos − x·sin` and each coordinate is passed
through `ceil`; `ceilLin b a s c = ⌈b·s + a·c⌉` packages those calls. -/
def getRotatedBoundingBox (rect : Rect) (angle_sin angle_cos : ℚ) : Rect :=
  let c_x := rect.x + Int.tdiv rect.w 2
  let c_y := rect.y + Int.tdiv rect.h 2
  let rx := rect.x - c_x
  let ry := rect.y - c_y
  let x1 := rx
  let x2 := rx + rect.w
  let y1 := ry
  let y3 := ry + rect.h
  let x1_2 := ceilLin y1 x1 angle_sin angle_cos
  let y1_2 := ceilLin (-x1) y1 angle_sin angle_cos
  let x2_2 := ceilLin y1 x2 angle_sin angle_cos
  let y2_2 := ceilLin (-x2) y1 angle_sin angle_cos
  let x3_2 := ceilLin y3 x2 angle_sin angle_cos
  let y3_2 := ceilLin (-x2) y3 angle_sin angle_cos
  let x4_2 := ceilLin y3 x1 angle_sin angle_cos
  let y4_2 := ceilLin (-x1) y3 angle_sin angle_cos
  let xmin := min x1_2 (min x2_2 (min x3_2 x4_2))
  let xmax := max x1_2 (max x2_2 (max x3_2 x4_2))
  let ymin := min y1_2 (min y2_2 (min y3_2 y4_2))
  let ymax := max y1_2 (max y2_2 (max y3_2 y4_2))
  ⟨xmin + c_x, ymin + c_y, xmax - xmin + 1, ymax - ymin + 1⟩

/-- The fixed-point step ratio of SBDL::resizeBilinear:
`(int)(((dim - 1) << 16) / target)`. -/
def stepRatio (dim target : Nat) : Nat :=
  ((dim - 1) * 65536) / target

/-- Integer part of the accumulated fixed-point coordinate after `k` steps of
`ratio`: in the source, `x` starts at 0 and gains `x_ratio` per iteration, so
at iteration `k` it equals `k * ratio`, and `xr = (int)(x >> 16)`. -/
def sampleCoord (ratio k : Nat) : Nat :=
  (k * ratio) / 65536

/-- Fractional part of the accumulated fixed-point coordinate:
`x_diff = x - (xr << 16)`. -/
def sampleFrac (ratio k : Nat) : Nat :=
  k * ratio - sampleCoord ratio k * 65536

/-- Source-buffer index `index = y_index + xr` read by SBDL::resizeBilinear for
target cell `(i, j)`, where `y_index = yr * w`. -/
def resampleIndex (w h w2 h2 i j : Nat) : Nat :=
  sampleCoord (stepRatio h h2) i * w + sampleCoord (stepRatio w w2) j

/-- Output cell `(i, j)` of SBDL::resizeBilinear: the four neighbours are
masked with `& 0xff` (for an `int` this is the value mod 256) and blended with
the 16.16 fixed-point weights; `>> 32` of the nonnegative sum is division by
2^32. -/
def resampleAlpha (pixels : List Int) (w h w2 h2 i j : Nat) : Int :=
  let yr := sampleCoord (stepRatio h h2) i
  let y_diff : Int := sampleFrac (stepRatio h h2) i
  let one_min_y_diff : Int := 65536 - y_diff
  let y_index := yr * w
  let xr := sampleCoord (stepRatio w w2) j
  let x_diff : Int := sampleFrac (stepRatio w w2) j
  let one_min_x_diff : Int := 65536 - x_diff
  let index := y_index + xr
  let A := readBuf pixels index % 256
  let B := readBuf pixels (index + 1) % 256
  let C := readBuf pixels (index + w) % 256
  let D := readBuf pixels (index + w + 1) % 256
  (A * one_min_x_diff * one_min_y_diff + B * x_diff * one_min_y_diff +
    C * y_diff * one_min_x_diff + D * x_diff * y_diff) / 4294967296

/-- SBDL::resizeBilinear: the output buffer is written row by row
(`temp[offset++] = alpha`), so it is the row-major listing of `resampleAlpha`. -/
def resizeBilinear (pixels : List Int) (w h w2 h2 : Nat) : List Int :=
  (List.range h2).flatMap (fun i => (List.range w2).map (fun j => resampleAlpha pixels w h w2 h2 i j))

/-- Row-major listing of the source cells `(i, j)` scanned by the two nested
loops of SBDL::getRotatedAlphaMap. -/
def scatterPairs (width height : Nat) : List (Nat × Nat) :=
  (List.range height).flatMap (fun i => (List.range width).map (fun j => (i, j)))

/-- Destination index of the scatter write of SBDL::getRotatedAlphaMap for
source cell `(i, j)`.  Here `s` and `c` are the sine and cosine of the already
negated angle (the function begins with `angle *= -1`), and
`roundLin b a s c = round(b·s + a·c)`. -/
def rotScatterIndex (width height : Nat) (s c : ℚ) (i j : Nat) : Int :=
  let boundingBox := getRotatedBoundingBox ⟨0, 0, (width : Int), (height : Int)⟩ s c
  let c_x : Int := (width / 2 : Nat)
  let c_y : Int := (height / 2 : Nat)
  let x := roundLin ((i : Int) - c_y) ((j : Int) - c_x) s c
  let y := roundLin (-((j : Int) - c_x)) ((i : Int) - c_y) s c
  (y + c_y + Int.tdiv (boundingBox.h - (height : Int)) 2) * boundingBox.w +
    x + c_x + Int.tdiv (boundingBox.w - (width : Int)) 2

/-- Size of the zero-initialised destination buffer
`new int[boundingBox.w * boundingBox.h]()` of SBDL::getRotatedAlphaMap. -/
def rotResultSize (width height : Nat) (s c : ℚ) : Nat :=
  let boundingBox := getRotatedBoundingBox ⟨0, 0, (width : Int), (height : Int)⟩ s c
  (boundingBox.w * boundingBox.h).toNat

/-- Loop body of SBDL::getRotatedAlphaMap: skip zero cells, otherwise scatter
the cell value to its rotated destination index. -/
def scatterStep (alphaMap : List Int) (width height : Nat) (s c : ℚ)
    (result : List Int) (p : Nat × Nat) : List Int :=
  let v := readBuf alphaMap ((p.1 * width + p.2 : Nat) : Int)
  if v ≠ 0 then writeBuf result (rotScatterIndex width height s c p.1 p.2) v else result

/-- SBDL::getRotatedAlphaMap.  The function starts with `angle *= -1`, so the
sine used everywhere below is the negation of the sine of the caller's angle
(`sin(-θ) = -sin θ`, `cos(-θ) = cos θ`). -/
def getRotatedAlphaMap (alphaMap : List Int) (width height : Nat)
    (angle_sin angle_cos : ℚ) : List Int :=
  let s := -angle_sin
  let c := angle_cos
  (scatterPairs width height).foldl (scatterStep alphaMap width height s c)
    (List.replicate (rotResultSize width height s c) 0)

/-- The double scan of the intersection region at the end of
SBDL::hasCollision, with early exit on the first co-occurring opaque pixel. -/
def collisionScan (map1 : List Int) (box1 : Rect) (map2 : List Int) (box2 : Rect)
    (intersection : Rect) : Bool :=
  (List.range intersection.h.toNat).any (fun di =>
    (List.range intersection.w.toNat).any (fun dj =>
      decide (readBuf map1 ((intersection.y + di - box1.y) * box1.w
          + (intersection.x + dj) - box1.x) ≠ 0 ∧
        readBuf map2 ((intersection.y + di - box2.y) * box2.w
          + (intersection.x + dj) - box2.x) ≠ 0)))

/-- SBDL::hasCollision, with each angle abstracted by its sine and cosine. -/
def hasCollision (texture1 : Texture) (rect1 : Rect) (angle_sin1 angle_cos1 : ℚ)
    (texture2 : Texture) (rect2 : Rect) (angle_sin2 angle_cos2 : ℚ) : Bool :=
  let box1 := getRotatedBoundingBox rect1 angle_sin1 angle_cos1
  let box2 := getRotatedBoundingBox rect2 angle_sin2 angle_cos2
  let intersection := getIntersectionRect box1 box2
  if intersection.w = 0 then false
  else
    let map1 := getRotatedAlphaMap
      (resizeBilinear texture1.alphaMap texture1.width texture1.height rect1.w.toNat rect1.h.toNat)
      rect1.w.toNat rect1.h.toNat angle_sin1 angle_cos1
    let map2 := getRotatedAlphaMap
      (resizeBilinear texture2.alphaMap texture2.width texture2.height rect2.w.toNat rect2.h.toNat)
      rect2.w.toNat rect2.h.toNat angle_sin2 angle_cos2
    collisionScan map1 box1 map2 box2 intersection

/-- SBDL::hasCollision instrumented with call counts: the second and third
components count the invocations of resizeBilinear and getRotatedAlphaMap made
on that control path (two of each on the full path, none on the early
bounding-box reject). -/
def hasCollisionCounted (texture1 : Texture) (rect1 : Rect) (angle_sin1 angle_cos1 : ℚ)
    (texture2 : Texture) (rect2 : Rect) (angle_sin2 angle_cos2 : ℚ) : Bool × Nat × Nat :=
  let box1 := getRotatedBoundingBox rect1 angle_sin1 angle_cos1
  let box2 := getRotatedBoundingBox rect2 angle_sin2 angle_cos2
  let intersection := getIntersectionRect box1 box2
  if intersection.w = 0 then (false, 0, 0)
  else
    let map1 := getRotatedAlphaMap
      (resizeBilinear texture1.alphaMap texture1.width texture1.height rect1.w.toNat rect1.h.toNat)
      rect1.w.toNat rect1.h.toNat angle_sin1 angle_cos1
    let map2 := getRotatedAlphaMap
      (resizeBilinear texture2.alphaMap texture2.width texture2.height rect2.w.toNat rect2.h.toNat)
      rect2.w.toNat rect2.h.toNat angle_sin2 angle_cos2
    (collisionScan map1 box1 map2 box2 intersection, 2, 2)

/-- The value the switch statement of SBDL::getAlpha assigns to `pixelColor`.
`bytes n` is the n-th byte at the pixel address; the 2- and 4-byte cases are
raw `Uint16`/`Uint32` loads, written here in little-endian byte order; the
3-byte case is the explicit little/big-endian assembly of the source.  The
switch has no default case, so for a bytes-per-pixel outside {1,2,3,4} the
C++ `pixelColor` is left uninitialized; that fall-through is modelled as
`none`. -/
def getAlphaPixelColor (bpp : Nat) (bytes : Nat → Nat) (bigEndian : Bool) : Option Nat :=
  match bpp with
  | 1 => some (bytes 0)
  | 2 => some (bytes 0 + 256 * bytes 1)
  | 3 => some (if bigEndian then 65536 * bytes 0 + 256 * bytes 1 + bytes 2
      else bytes 0 + 256 * bytes 1 + 65536 * bytes 2)
  | 4 => some (bytes 0 + 256 * bytes 1 + 65536 * bytes 2 + 16777216 * bytes 3)
  | _ => none

theorem ceilLin_zero_one (b a : Int) : ceilLin b a 0 1 = a := by
  rw [ceilLin_eq]
  simp

/-- C4 (amended): for every rectangle with nonnegative width and height, the
rotated bounding box at angle 0 (sine 0, cosine 1) keeps the position of the
rectangle but is one pixel wider and one pixel taller: the `+1` of the
inclusive-pixel-count convention is applied even at angle 0. -/
theorem getRotatedBoundingBox_zero_angle (rect : Rect) (hw : 0 ≤ rect.w) (hh : 0 ≤ rect.h) :
    getRotatedBoundingBox rect 0 1 = ⟨rect.x, rect.y, rect.w + 1, rect.h + 1⟩ := by
  obtain ⟨rx, ry, rw, rh⟩ := rect
  simp only [getRotatedBoundingBox, ceilLin_zero_one] at *
  generalize Int.tdiv rw 2 = tw
  generalize Int.tdiv rh 2 = th
  rw [Rect.mk.injEq]
  refine ⟨by omega, by omega, by omega, by omega⟩

/-- C4 (counterexample): at angle 0 the bounding box of `{0,0,10,10}` is not
the rectangle itself (it is `{0,0,11,11}`). -/
theorem getRotatedBoundingBox_zero_angle_cex :
    getRotatedBoundingBox ⟨0, 0, 10, 10⟩ 0 1 ≠ ⟨0, 0, 10, 10⟩ := by decide

/-- C4 (witness): the amended statement at `{0,0,10,10}`. -/
theorem getRotatedBoundingBox_zero_angle_witness :
    (0 : Int) ≤ 10 ∧ (0 : Int) ≤ 10 ∧
      getRotatedBoundingBox ⟨0, 0, 10, 10⟩ 0 1 = ⟨0, 0, 10 + 1, 10 + 1⟩ :=
  ⟨by decide, by decide, getRotatedBoundingBox_zero_angle ⟨0, 0, 10, 10⟩ (by decide) (by decide)⟩

/-- C8 (amended): a rectangle with positive width and height intersected with
itself is itself. -/
theorem getIntersectionRect_self (A : Rect) (hw : 0 < A.w) (hh : 0 < A.h) :
    getIntersectionRect A A = A := by
  obtain ⟨ax, ay, aw, ah⟩ := A
  simp only [getIntersectionRect, max_self, min_self] at *
  rw [if_pos ⟨by omega, by omega⟩, Rect.mk.injEq]
  refine ⟨rfl, rfl, by omega, by omega⟩

/-- C8 (counterexample): for the degenerate rectangle `{1,1,0,0}` the
self-intersection is the sentinel `{0,0,0,0}`, not the rectangle itself. -/
theorem getIntersectionRect_self_cex :
    getIntersectionRect ⟨1, 1, 0, 0⟩ ⟨1, 1, 0, 0⟩ ≠ ⟨1, 1, 0, 0⟩ := by decide

/-- C8 (witness): the amended statement at `{2,3,10,10}`. -/
theorem getIntersectionRect_self_witness :
    (0 : Int) < 10 ∧ (0 : Int) < 10 ∧
      getIntersectionRect ⟨2, 3, 10, 10⟩ ⟨2, 3, 10, 10⟩ = ⟨2, 3, 10, 10⟩ :=
  ⟨by decide, by decide, getIntersectionRect_self ⟨2, 3, 10, 10⟩ (by decide) (by decide)⟩

/-- C2: whenever the intersection of the two rotated bounding boxes is the
zero-area sentinel, hasCollision returns false, and the instrumented variant
shows that this early-reject path performs zero resizeBilinear and zero
getRotatedAlphaMap invocations. -/
theorem hasCollision_empty_intersection (t1 : Texture) (r1 : Rect) (s1 c1 : ℚ)
    (t2 : Texture) (r2 : Rect) (s2 c2 : ℚ)
    (hempty : getIntersectionRect (getRotatedBoundingBox r1 s1 c1)
      (getRotatedBoundingBox r2 s2 c2) = ⟨0, 0, 0, 0⟩) :
    hasCollision t1 r1 s1 c1 t2 r2 s2 c2 = false ∧
      hasCollisionCounted t1 r1 s1 c1 t2 r2 s2 c2 = (false, 0, 0) := by
  constructor
  · simp [hasCollision, hempty]
  · simp [hasCollisionCounted, hempty]

/-- C2 (witness): two far-apart sprites, `{0,0,10,10}` and `{100,100,10,10}` at
angle 0, hit the early-reject path. -/
theorem hasCollision_empty_intersection_witness :
    getIntersectionRect (getRotatedBoundingBox ⟨0, 0, 10, 10⟩ 0 1)
        (getRotatedBoundingBox ⟨100, 100, 10, 10⟩ 0 1) = ⟨0, 0, 0, 0⟩ ∧
      (hasCollision ⟨1, 1, [255]⟩ ⟨0, 0, 10, 10⟩ 0 1 ⟨1, 1, [255]⟩ ⟨100, 100, 10, 10⟩ 0 1 = false ∧
        hasCollisionCounted ⟨1, 1, [255]⟩ ⟨0, 0, 10, 10⟩ 0 1
          ⟨1, 1, [255]⟩ ⟨100, 100, 10, 10⟩ 0 1 = (false, 0, 0)) :=
  ⟨by decide, hasCollision_empty_intersection ⟨1, 1, [255]⟩ ⟨0, 0, 10, 10⟩ 0 1
    ⟨1, 1, [255]⟩ ⟨100, 100, 10, 10⟩ 0 1 (by decide)⟩

set_option maxRecDepth 1000000 in
/-- C7: two fully opaque 10×10 sprites at the edge-adjacent rectangles
`{0,0,10,10}` and `{10,0,10,10}`, both at angle 0, do not collide. -/
theorem hasCollision_edge_adjacent :
    hasCollision ⟨10, 10, List.replicate 100 255⟩ ⟨0, 0, 10, 10⟩ 0 1
      ⟨10, 10, List.replicate 100 255⟩ ⟨10, 0, 10, 10⟩ 0 1 = false := by
  decide

/-- C5 (code evaluated at the failing input): for a bytes-per-pixel outside
{1,2,3,4} the switch of getAlpha assigns nothing to pixelColor (the C++ value
stays uninitialized) — there is no assertion or hard error, and the function
goes on to decode and return an alpha from that indeterminate value. -/
theorem getAlphaPixelColor_unsupported (bpp : Nat) (bytes : Nat → Nat) (be : Bool)
    (hbpp : bpp ∉ [1, 2, 3, 4]) : getAlphaPixelColor bpp bytes be = none := by
  match bpp with
  | 0 => rfl
  | 1 => exact absurd (by decide) hbpp
  | 2 => exact absurd (by decide) hbpp
  | 3 => exact absurd (by decide) hbpp
  | 4 => exact absurd (by decide) hbpp
  | (n + 5) => rfl

/-- C5 (witness): bytes-per-pixel 5. -/
theorem getAlphaPixelColor_unsupported_witness :
    5 ∉ [1, 2, 3, 4] ∧ getAlphaPixelColor 5 (fun _ => 171) false = none :=
  ⟨by decide, getAlphaPixelColor_unsupported 5 (fun _ => 171) false (by decide)⟩

/-- C10 (code evaluated at the failing input): for a 10×10 map rotated by the
angle θ with sin θ = −5/13 and cos θ = −12/13 (θ ≈ 202.6°; the rotator negates
the angle, so its internal sine is 5/13), the scatter write for source cell
(i,j) = (0,0) targets index 206, but the allocated destination buffer has only
`boundingBox.w * boundingBox.h = 14 * 14 = 196` cells: the write is out of
bounds. -/
theorem rotScatterIndex_out_of_bounds :
    rotScatterIndex 10 10 (-(mkRat (-5) 13)) (mkRat (-12) 13) 0 0 = 206 ∧
      rotResultSize 10 10 (-(mkRat (-5) 13)) (mkRat (-12) 13) = 196 := by
  decide

/-- The four neighbour reads `pixels[index]`, `pixels[index+1]`,
`pixels[index+w]`, `pixels[index+w+1]` of SBDL::resizeBilinear stay inside the
source buffer `[0, w*h)` for every target cell. -/
def resampleReadsInBounds (w h w2 h2 : Nat) : Prop :=
  ∀ i < h2, ∀ j < w2,
    resampleIndex w h w2 h2 i j < w * h ∧
    resampleIndex w h w2 h2 i j + 1 < w * h ∧
    resampleIndex w h w2 h2 i j + w < w * h ∧
    resampleIndex w h w2 h2 i j + w + 1 < w * h

instance (w h w2 h2 : Nat) : Decidable (resampleReadsInBounds w h w2 h2) := by
  unfold resampleReadsInBounds
  infer_instance

theorem sampleCoord_le (dim target k : Nat) (hdim : 2 ≤ dim) (hk : k < target) :
    sampleCoord (stepRatio dim target) k ≤ dim - 2 := by
  have hr : stepRatio dim target * target ≤ (dim - 1) * 65536 :=
    Nat.div_mul_le_self _ _
  have h1 : k * stepRatio dim target ≤ (target - 1) * stepRatio dim target :=
    mul_le_mul_right' (by omega) _
  have h2 : (target - 1) * stepRatio dim target
      = target * stepRatio dim target - stepRatio dim target := by
    rw [Nat.sub_mul, one_mul]
  have h3 : target * stepRatio dim target = stepRatio dim target * target :=
    Nat.mul_comm _ _
  have hkr : k * stepRatio dim target < (dim - 1) * 65536 := by
    rcases Nat.eq_zero_or_pos (stepRatio dim target) with h0 | h0
    · rw [h0]
      simp only [Nat.mul_zero]
      omega
    · omega
  have h4 : (k * stepRatio dim target) / 65536 < dim - 1 := by
    rw [Nat.div_lt_iff_lt_mul (by norm_num)]
    exact hkr
  rw [sampleCoord]
  omega

/-- C3 (amended): for every source map of dimensions at least 2×2 and every
positive target size, all four neighbour reads of the bilinear resampler are
within the source buffer, as a structural consequence of the `(dim-1)`
fixed-point step ratio.  (For `w = 1` or `h = 1` the `+1`/`+w` neighbours do go
out of bounds; see the counterexample.) -/
theorem resample_reads_in_bounds (w h w2 h2 : Nat) (hw : 2 ≤ w) (hh : 2 ≤ h)
    (hw2 : 0 < w2) (hh2 : 0 < h2) : resampleReadsInBounds w h w2 h2 := by
  intro i hi j hj
  have hx := sampleCoord_le w w2 j hw hj
  have hy := sampleCoord_le h h2 i hh hi
  simp only [resampleIndex]
  set yr := sampleCoord (stepRatio h h2) i
  set xr := sampleCoord (stepRatio w w2) j
  have h1 : yr * w ≤ (h - 2) * w := mul_le_mul_right' hy w
  have h2 : (h - 2) * w = h * w - 2 * w := by rw [Nat.sub_mul]
  have h3 : h * w = w * h := Nat.mul_comm h w
  have h4 : 2 * w ≤ h * w := mul_le_mul_right' hh w
  refine ⟨by omega, by omega, by omega, by omega⟩

/-- C3 (counterexample): for a 1×1 source map (and target 1×1) the reads
`pixels[index+1]`, `pixels[index+w]`, `pixels[index+w+1]` fall outside the
one-cell source buffer. -/
theorem resample_reads_in_bounds_cex : ¬ resampleReadsInBounds 1 1 1 1 := by
  decide

/-- C3 (witness): a 3×2 source map resampled to 5×4. -/
theorem resample_reads_in_bounds_witness :
    2 ≤ 3 ∧ 2 ≤ 2 ∧ 0 < 5 ∧ 0 < 4 ∧ resampleReadsInBounds 3 2 5 4 :=
  ⟨by decide, by decide, by decide, by decide,
    resample_reads_in_bounds 3 2 5 4 (by decide) (by decide) (by decide) (by decide)⟩

theorem sampleFrac_lt (ratio k : Nat) : sampleFrac ratio k < 65536 := by
  rw [sampleFrac, sampleCoord]
  omega

theorem blend_range (a1 a2 a3 a4 xd yd : Int)
    (hx1 : 0 ≤ xd) (hx2 : xd ≤ 65535) (hy1 : 0 ≤ yd) (hy2 : yd ≤ 65535) :
    0 ≤ (a1 % 256 * (65536 - xd) * (65536 - yd) + a2 % 256 * xd * (65536 - yd) +
        a3 % 256 * yd * (65536 - xd) + a4 % 256 * xd * yd) / 4294967296 ∧
      (a1 % 256 * (65536 - xd) * (65536 - yd) + a2 % 256 * xd * (65536 - yd) +
        a3 % 256 * yd * (65536 - xd) + a4 % 256 * xd * yd) / 4294967296 ≤ 255 := by
  have hA1 : 0 ≤ a1 % 256 ∧ a1 % 256 ≤ 255 := by omega
  have hA2 : 0 ≤ a2 % 256 ∧ a2 % 256 ≤ 255 := by omega
  have hA3 : 0 ≤ a3 % 256 ∧ a3 % 256 ≤ 255 := by omega
  have hA4 : 0 ≤ a4 % 256 ∧ a4 % 256 ≤ 255 := by omega
  have homx : (0 : Int) ≤ 65536 - xd := by omega
  have homy : (0 : Int) ≤ 65536 - yd := by omega
  have e1 : a1 % 256 * (65536 - xd) * (65536 - yd) ≤ 255 * ((65536 - xd) * (65536 - yd)) := by
    rw [mul_assoc]
    exact mul_le_mul_of_nonneg_right hA1.2 (mul_nonneg homx homy)
  have e2 : a2 % 256 * xd * (65536 - yd) ≤ 255 * (xd * (65536 - yd)) := by
    rw [mul_assoc]
    exact mul_le_mul_of_nonneg_right hA2.2 (mul_nonneg hx1 homy)
  have e3 : a3 % 256 * yd * (65536 - xd) ≤ 255 * (yd * (65536 - xd)) := by
    rw [mul_assoc]
    exact mul_le_mul_of_nonneg_right hA3.2 (mul_nonneg hy1 homx)
  have e4 : a4 % 256 * xd * yd ≤ 255 * (xd * yd) := by
    rw [mul_assoc]
    exact mul_le_mul_of_nonneg_right hA4.2 (mul_nonneg hx1 hy1)
  have hS0 : 0 ≤ a1 % 256 * (65536 - xd) * (65536 - yd) + a2 % 256 * xd * (65536 - yd) +
      a3 % 256 * yd * (65536 - xd) + a4 % 256 * xd * yd := by
    have n1 := mul_nonneg (mul_nonneg hA1.1 homx) homy
    have n2 := mul_nonneg (mul_nonneg hA2.1 hx1) homy
    have n3 := mul_nonneg (mul_nonneg hA3.1 hy1) homx
    have n4 := mul_nonneg (mul_nonneg hA4.1 hx1) hy1
    omega
  have hS : a1 % 256 * (65536 - xd) * (65536 - yd) + a2 % 256 * xd * (65536 - yd) +
      a3 % 256 * yd * (65536 - xd) + a4 % 256 * xd * yd ≤ 255 * 4294967296 := by
    calc a1 % 256 * (65536 - xd) * (65536 - yd) + a2 % 256 * xd * (65536 - yd) +
        a3 % 256 * yd * (65536 - xd) + a4 % 256 * xd * yd
        ≤ 255 * ((65536 - xd) * (65536 - yd)) + 255 * (xd * (65536 - yd)) +
          255 * (yd * (65536 - xd)) + 255 * (xd * yd) :=
          add_le_add (add_le_add (add_le_add e1 e2) e3) e4
      _ = 255 * 4294967296 := by ring
  omega

/-- Every output cell of resizeBilinear lies in [0, 255]: the four samples are
masked to [0, 256) and the four fixed-point weights sum to exactly 2^32. -/
theorem resampleAlpha_range (pixels : List Int) (w h w2 h2 i j : Nat) :
    0 ≤ resampleAlpha pixels w h w2 h2 i j ∧ resampleAlpha pixels w h w2 h2 i j ≤ 255 := by
  have hxf := sampleFrac_lt (stepRatio w w2) j
  have hyf := sampleFrac_lt (stepRatio h h2) i
  simp only [resampleAlpha]
  exact blend_range _ _ _ _ _ _ (by positivity) (by exact_mod_cast Nat.lt_succ_iff.mp hxf)
    (by positivity) (by exact_mod_cast Nat.lt_succ_iff.mp hyf)

/-- C9: for every input buffer of arbitrary int values, every cell of the
output of resizeBilinear lies in the range [0, 255]. -/
theorem resizeBilinear_range (pixels : List Int) (w h w2 h2 : Nat)
    (hw2 : 0 < w2) (hh2 : 0 < h2) (hb : resampleReadsInBounds w h w2 h2) :
    ∀ v ∈ resizeBilinear pixels w h w2 h2, 0 ≤ v ∧ v ≤ 255 := by
  intro v hv
  simp only [resizeBilinear, List.mem_flatMap, List.mem_map, List.mem_range] at hv
  obtain ⟨i, hi, j, hj, rfl⟩ := hv
  exact resampleAlpha_range pixels w h w2 h2 i j

/-- C9 (witness): a 2×2 buffer (with one value above 255 and masked) resampled
to 1×1. -/
theorem resizeBilinear_range_witness :
    0 < 1 ∧ 0 < 1 ∧ resampleReadsInBounds 2 2 1 1 ∧
      (0 ≤ (resizeBilinear [0, 77, 200, 300] 2 2 1 1).getD 0 0 ∧
        (resizeBilinear [0, 77, 200, 300] 2 2 1 1).getD 0 0 ≤ 255) :=
  ⟨by decide, by decide, by decide,
    resizeBilinear_range [0, 77, 200, 300] 2 2 1 1 (by decide) (by decide) (by decide)
      ((resizeBilinear [0, 77, 200, 300] 2 2 1 1).getD 0 0) (by decide)⟩

theorem writeBuf_length (buf : List Int) (idx : Int) (v : Int) :
    (writeBuf buf idx v).length = buf.length := by
  rw [writeBuf]
  split
  · exact List.length_set buf _ _
  · rfl

theorem scatterStep_length (alphaMap : List Int) (width height : Nat) (s c : ℚ)
    (buf : List Int) (p : Nat × Nat) :
    (scatterStep alphaMap width height s c buf p).length = buf.length := by
  rw [scatterStep]
  split
  · exact writeBuf_length _ _ _
  · rfl

theorem getD_writeBuf_hit (buf : List Int) (k : Nat) (v : Int) (hk : k < buf.length) :
    (writeBuf buf (k : Int) v).getD k 0 = v := by
  rw [writeBuf, if_pos ⟨Int.ofNat_nonneg k, by simpa using hk⟩]
  simp [List.getD_eq_getElem?_getD, List.getElem?_set, hk]

theorem getD_writeBuf_miss (buf : List Int) (idx : Int) (k : Nat) (v : Int)
    (hne : idx ≠ (k : Int)) : (writeBuf buf idx v).getD k 0 = buf.getD k 0 := by
  rw [writeBuf]
  split
  · next hidx =>
    have : idx.toNat ≠ k := by omega
    simp [List.getD_eq_getElem?_getD, List.getElem?_set, this]
  · rfl

theorem getLast?_cons_elim (p : Nat × Nat) (l : List (Nat × Nat)) (d : Int)
    (f : Nat × Nat → Int) :
    ((p :: l).getLast?).elim d f = (l.getLast?).elim (f p) f := by
  cases l with
  | nil => rfl
  | cons q l => simp [List.getLast?]

/-- Characterisation of the scatter loop: after folding the loop body over any
list of source cells, cell `k` of the buffer holds the alpha value of the last
scanned cell that is nonzero and scatters to index `k`, or its initial value if
no such cell exists. -/
theorem scatterFold_getD (alphaMap : List Int) (width height : Nat) (s c : ℚ)
    (ps : List (Nat × Nat)) (buf : List Int) (k : Nat) (hk : k < buf.length) :
    (ps.foldl (scatterStep alphaMap width height s c) buf).getD k 0 =
      ((ps.filter (fun p => decide (readBuf alphaMap ((p.1 * width + p.2 : Nat) : Int) ≠ 0 ∧
          rotScatterIndex width height s c p.1 p.2 = (k : Int)))).getLast?).elim
        (buf.getD k 0) (fun p => readBuf alphaMap ((p.1 * width + p.2 : Nat) : Int)) := by
  induction ps generalizing buf with
  | nil => rfl
  | cons p ps ih =>
    rw [List.foldl_cons, List.filter_cons,
      ih (scatterStep alphaMap width height s c buf p)
        (by rw [scatterStep_length]; exact hk)]
    by_cases hp : readBuf alphaMap ((p.1 * width + p.2 : Nat) : Int) ≠ 0 ∧
        rotScatterIndex width height s c p.1 p.2 = (k : Int)
    · rw [if_pos (decide_eq_true hp), getLast?_cons_elim]
      have hstep : (scatterStep alphaMap width height s c buf p).getD k 0 =
          readBuf alphaMap ((p.1 * width + p.2 : Nat) : Int) := by
        rw [scatterStep]
        rw [if_pos hp.1, hp.2]
        exact getD_writeBuf_hit buf k _ hk
      rw [hstep]
    · rw [if_neg (by simpa using hp)]
      have hstep : (scatterStep alphaMap width height s c buf p).getD k 0 = buf.getD k 0 := by
        rw [scatterStep]
        split
        · next hv =>
          refine getD_writeBuf_miss buf _ k _ (fun heq => hp ⟨hv, heq⟩)
        · rfl
      rw [hstep]

/-- C6: each cell of the map produced by getRotatedAlphaMap is either 0 (when
no nonzero source cell scatters to it) or the alpha value of the last source
cell in row-major scan order whose rounded rotated position maps to that cell;
zero source cells are skipped and contribute nothing.  The sine/cosine pair
inside the filter is the one the rotator actually uses after `angle *= -1`. -/
theorem getRotatedAlphaMap_cells (alphaMap : List Int) (width height : Nat)
    (angle_sin angle_cos : ℚ) (hw : 0 < width) (hh : 0 < height) (k : Nat)
    (hk : k < rotResultSize width height (-angle_sin) angle_cos) :
    (getRotatedAlphaMap alphaMap width height angle_sin angle_cos).getD k 0 =
      (((scatterPairs width height).filter (fun p =>
          decide (readBuf alphaMap ((p.1 * width + p.2 : Nat) : Int) ≠ 0 ∧
            rotScatterIndex width height (-angle_sin) angle_cos p.1 p.2 = (k : Int)))).getLast?).elim
        0 (fun p => readBuf alphaMap ((p.1 * width + p.2 : Nat) : Int)) := by
  have hrepl : (List.replicate (rotResultSize width height (-angle_sin) angle_cos) (0 : Int)).getD k 0 = 0 := by
    simp [List.getD_eq_getElem?_getD]
  simp only [getRotatedAlphaMap]
  rw [scatterFold_getD alphaMap width height (-angle_sin) angle_cos _ _ k
    (by simpa using hk), hrepl]

/-- C6 (witness): the map `[255, 0]` of size 2×1 at angle 0 and destination
cell 0. -/
theorem getRotatedAlphaMap_cells_witness :
    0 < 2 ∧ 0 < 1 ∧ 0 < rotResultSize 2 1 (-(0 : ℚ)) 1 ∧
      (getRotatedAlphaMap [255, 0] 2 1 0 1).getD 0 0 =
        (((scatterPairs 2 1).filter (fun p =>
            decide (readBuf [255, 0] ((p.1 * 2 + p.2 : Nat) : Int) ≠ 0 ∧
              rotScatterIndex 2 1 (-(0 : ℚ)) 1 p.1 p.2 = ((0 : Nat) : Int)))).getLast?).elim
          0 (fun p => readBuf [255, 0] ((p.1 * 2 + p.2 : Nat) : Int)) :=
  ⟨by decide, by decide, by decide,
    getRotatedAlphaMap_cells [255, 0] 2 1 0 1 (by decide) (by decide) 0 (by decide)⟩

/-- The nested scan over the intersection region succeeds exactly when some
coordinate (j, i) inside the intersection rectangle has nonzero opacity in both
maps, each map read in its own bounding-box frame. -/
theorem collisionScan_iff (map1 : List Int) (box1 : Rect) (map2 : List Int) (box2 : Rect)
    (inter : Rect) :
    collisionScan map1 box1 map2 box2 inter = true ↔
      ∃ i j : Int, inter.y ≤ i ∧ i < inter.y + inter.h ∧ inter.x ≤ j ∧ j < inter.x + inter.w ∧
        readBuf map1 ((i - box1.y) * box1.w + j - box1.x) ≠ 0 ∧
        readBuf map2 ((i - box2.y) * box2.w + j - box2.x) ≠ 0 := by
  rw [collisionScan]
  simp only [List.any_eq_true, List.mem_range, decide_eq_true_eq]
  constructor
  · rintro ⟨di, hdi, dj, hdj, h1, h2⟩
    exact ⟨inter.y + di, inter.x + dj, by omega, by omega, by omega, by omega, h1, h2⟩
  · rintro ⟨i, j, hi1, hi2, hj1, hj2, h1, h2⟩
    refine ⟨(i - inter.y).toNat, by omega, (j - inter.x).toNat, by omega, ?_, ?_⟩
    · have hI : inter.y + ((i - inter.y).toNat : Int) = i := by omega
      have hJ : inter.x + ((j - inter.x).toNat : Int) = j := by omega
      rw [hI, hJ]
      exact h1
    · have hI : inter.y + ((i - inter.y).toNat : Int) = i := by omega
      have hJ : inter.x + ((j - inter.x).toNat : Int) = j := by omega
      rw [hI, hJ]
      exact h2

/-- C1: hasCollision returns true exactly when some coordinate (j, i) inside
the intersection of the two rotated bounding boxes has nonzero opacity in both
sprites' resized-then-rotated maps, each map read at the coordinate translated
by its own bounding-box origin (row `i - box.y`, column `j - box.x`, row length
`box.w`). -/
theorem hasCollision_iff (texture1 : Texture) (rect1 : Rect) (s1 c1 : ℚ)
    (texture2 : Texture) (rect2 : Rect) (s2 c2 : ℚ)
    (ht1w : 0 < texture1.width) (ht1h : 0 < texture1.height)
    (ht2w : 0 < texture2.width) (ht2h : 0 < texture2.height)
    (hr1w : 0 < rect1.w) (hr1h : 0 < rect1.h) (hr2w : 0 < rect2.w) (hr2h : 0 < rect2.h) :
    hasCollision texture1 rect1 s1 c1 texture2 rect2 s2 c2 = true ↔
      ∃ i j : Int,
        (getIntersectionRect (getRotatedBoundingBox rect1 s1 c1)
          (getRotatedBoundingBox rect2 s2 c2)).y ≤ i ∧
        i < (getIntersectionRect (getRotatedBoundingBox rect1 s1 c1)
          (getRotatedBoundingBox rect2 s2 c2)).y +
          (getIntersectionRect (getRotatedBoundingBox rect1 s1 c1)
            (getRotatedBoundingBox rect2 s2 c2)).h ∧
        (getIntersectionRect (getRotatedBoundingBox rect1 s1 c1)
          (getRotatedBoundingBox rect2 s2 c2)).x ≤ j ∧
        j < (getIntersectionRect (getRotatedBoundingBox rect1 s1 c1)
          (getRotatedBoundingBox rect2 s2 c2)).x +
          (getIntersectionRect (getRotatedBoundingBox rect1 s1 c1)
            (getRotatedBoundingBox rect2 s2 c2)).w ∧
        readBuf (getRotatedAlphaMap
            (resizeBilinear texture1.alphaMap texture1.width texture1.height
              rect1.w.toNat rect1.h.toNat) rect1.w.toNat rect1.h.toNat s1 c1)
          ((i - (getRotatedBoundingBox rect1 s1 c1).y) * (getRotatedBoundingBox rect1 s1 c1).w
            + j - (getRotatedBoundingBox rect1 s1 c1).x) ≠ 0 ∧
        readBuf (getRotatedAlphaMap
            (resizeBilinear texture2.alphaMap texture2.width texture2.height
              rect2.w.toNat rect2.h.toNat) rect2.w.toNat rect2.h.toNat s2 c2)
          ((i - (getRotatedBoundingBox rect2 s2 c2).y) * (getRotatedBoundingBox rect2 s2 c2).w
            + j - (getRotatedBoundingBox rect2 s2 c2).x) ≠ 0 := by
  simp only [hasCollision]
  split
  · next hw0 =>
    simp only [Bool.false_eq_true, false_iff]
    rintro ⟨i, j, hi1, hi2, hj1, hj2, h1, h2⟩
    omega
  · next hw0 =>
    exact collisionScan_iff _ _ _ _ _

/-- C1 (witness): two fully opaque 1×1 sprites at the same unit rectangle. -/
theorem hasCollision_iff_witness :
    (0 : Nat) < 1 ∧ (0 : Int) < 1 ∧
      (hasCollision ⟨1, 1, [255]⟩ ⟨0, 0, 1, 1⟩ 0 1 ⟨1, 1, [255]⟩ ⟨0, 0, 1, 1⟩ 0 1 = true ↔
        ∃ i j : Int,
          (getIntersectionRect (getRotatedBoundingBox ⟨0, 0, 1, 1⟩ 0 1)
            (getRotatedBoundingBox ⟨0, 0, 1, 1⟩ 0 1)).y ≤ i ∧
          i < (getIntersectionRect (getRotatedBoundingBox ⟨0, 0, 1, 1⟩ 0 1)
            (getRotatedBoundingBox ⟨0, 0, 1, 1⟩ 0 1)).y +
            (getIntersectionRect (getRotatedBoundingBox ⟨0, 0, 1, 1⟩ 0 1)
              (getRotatedBoundingBox ⟨0, 0, 1, 1⟩ 0 1)).h ∧
          (getIntersectionRect (getRotatedBoundingBox ⟨0, 0, 1, 1⟩ 0 1)
            (getRotatedBoundingBox ⟨0, 0, 1, 1⟩ 0 1)).x ≤ j ∧
          j < (getIntersectionRect (getRotatedBoundingBox ⟨0, 0, 1, 1⟩ 0 1)
            (getRotatedBoundingBox ⟨0, 0, 1, 1⟩ 0 1)).x +
            (getIntersectionRect (getRotatedBoundingBox ⟨0, 0, 1, 1⟩ 0 1)
              (getRotatedBoundingBox ⟨0, 0, 1, 1⟩ 0 1)).w ∧
          readBuf (getRotatedAlphaMap (resizeBilinear [255] 1 1 (1 : Int).toNat (1 : Int).toNat)
              (1 : Int).toNat (1 : Int).toNat 0 1)
            ((i - (getRotatedBoundingBox ⟨0, 0, 1, 1⟩ 0 1).y)
                * (getRotatedBoundingBox ⟨0, 0, 1, 1⟩ 0 1).w
              + j - (getRotatedBoundingBox ⟨0, 0, 1, 1⟩ 0 1).x) ≠ 0 ∧
          readBuf (getRotatedAlphaMap (resizeBilinear [255] 1 1 (1 : Int).toNat (1 : Int).toNat)
              (1 : Int).toNat (1 : Int).toNat 0 1)
            ((i - (getRotatedBoundingBox ⟨0, 0, 1, 1⟩ 0 1).y)
                * (getRotatedBoundingBox ⟨0, 0, 1, 1⟩ 0 1).w
              + j - (getRotatedBoundingBox ⟨0, 0, 1, 1⟩ 0 1).x) ≠ 0) :=
  ⟨by decide, by decide,
    hasCollision_iff ⟨1, 1, [255]⟩ ⟨0, 0, 1, 1⟩ 0 1 ⟨1, 1, [255]⟩ ⟨0, 0, 1, 1⟩ 0 1
      (by decide) (by decide) (by decide) (by decide)
      (by decide) (by decide) (by decide) (by decide)⟩

end SBDL
